import Mathlib

/-!
Verification of the Unified Session Runtime (unified-agent-sdk).

This file is a shallow embedding, in Lean 4, of the parts of the repository
that the specification's claims are about:

* the bounded single-consumer event stream (`AsyncEventStream`, identical
  copies in `src/unnamed/part_006`, `provider-claude/src/index.ts` and the
  Codex provider);
* the permission-mapping engine (`normalizePermissions`,
  `mapUnifiedPermissionsToCodex`, `mapUnifiedPermissionsToClaude` with its
  per-tool `canUseTool` gate and the shell-command classifiers);
* the structured-output schema normalizer (both the shared
  `runtime-core/src/structured-output.ts` version and the provider-local
  copies);
* the session/run lifecycle controller (`ClaudeSession.run` /
  `CodexSession.run` and their `runEvents` generators).

Modelling conventions: JavaScript's cooperative single-threaded scheduling
lets the generator loops be embedded as pure functions from the list of
native backend events (plus how the native stream ends, and the observed
state of the abort signal) to the list of unified runtime events pushed to
the channel and the value the result promise resolves with.  Wall-clock
timestamps (`atMs`), run ids on events, usage accounting and the
structured-output payload of terminal events are elided from the event
vocabulary; statuses, texts, messages and ordering are kept.  String
literals from the source are kept verbatim except that quote characters
inside interpolated messages are dropped.
-/

namespace UnifiedAgentSDK

/-! ## Bounded single-consumer event stream

Embeds the `AsyncEventStream<T>` class (`src/unnamed/part_006`).  The
`pending` array of promise resolvers is modelled by its length
(`pendingCount`): resolvers are indistinguishable, and a `push` that lands
on a waiting resolver is modelled by returning the delivered item.
-/

structure AsyncEventStream (α : Type) where
  maxBuffer : Nat
  buffer : List α
  pendingCount : Nat
  closed : Bool
  iteratorCreated : Bool
deriving DecidableEq, Repr

/-- `new AsyncEventStream({maxBuffer})`; the constructor defaults
`maxBuffer` to 2048 when the option is absent. -/
def AsyncEventStream.new (α : Type) (maxBuffer : Nat) : AsyncEventStream α :=
  { maxBuffer := maxBuffer, buffer := [], pendingCount := 0, closed := false,
    iteratorCreated := false }

/-- `push(value)`: no-op when closed; otherwise hand the value to a waiting
consumer if one is suspended (the delivered value is the second component),
else append to the buffer and evict the oldest item when over capacity. -/
def AsyncEventStream.push {α : Type} (s : AsyncEventStream α) (value : α) :
    AsyncEventStream α × Option α :=
  if s.closed then (s, none)
  else if 0 < s.pendingCount then
    ({ s with pendingCount := s.pendingCount - 1 }, some value)
  else
    let b := s.buffer ++ [value]
    ({ s with buffer := if s.maxBuffer < b.length then b.tail else b }, none)

/-- `close()`: idempotent; resolves every suspended consumer with
end-of-sequence (modelled by zeroing `pendingCount`). -/
def AsyncEventStream.close {α : Type} (s : AsyncEventStream α) : AsyncEventStream α :=
  if s.closed then s else { s with closed := true, pendingCount := 0 }

/-- Outcome of one `next()` call of the async iterator. -/
inductive NextOutcome (α : Type) where
  | item (x : α)
  | finished
  | suspended
deriving DecidableEq, Repr

/-- The iterator's `next()`: serve the oldest buffered item, else report
end-of-sequence when closed, else suspend (enqueue a pending resolver). -/
def AsyncEventStream.next {α : Type} (s : AsyncEventStream α) :
    NextOutcome α × AsyncEventStream α :=
  match s.buffer with
  | x :: rest => (NextOutcome.item x, { s with buffer := rest })
  | [] =>
    if s.closed then (NextOutcome.finished, s)
    else (NextOutcome.suspended, { s with pendingCount := s.pendingCount + 1 })

/-- `[Symbol.asyncIterator]()`: the runtime guard that makes the stream
single-use.  A second request throws. -/
def AsyncEventStream.iterate {α : Type} (s : AsyncEventStream α) :
    Except String (AsyncEventStream α) :=
  if s.iteratorCreated then
    Except.error "RunHandle.events can only be consumed once."
  else Except.ok { s with iteratorCreated := true }

/-- Push a whole list of items in order (producer side, state only). -/
def AsyncEventStream.pushAll {α : Type} (s : AsyncEventStream α) (xs : List α) :
    AsyncEventStream α :=
  xs.foldl (fun t x => (t.push x).1) s

/-- Fuel-bounded consumption trace: iterate `next()` and record outcomes,
stopping at end-of-sequence or a suspension. -/
def AsyncEventStream.consumeTrace {α : Type} : Nat → AsyncEventStream α → List (NextOutcome α)
  | 0, _ => []
  | Nat.succ fuel, s =>
    match s.next with
    | (NextOutcome.item x, t) => NextOutcome.item x :: AsyncEventStream.consumeTrace fuel t
    | (NextOutcome.finished, _) => [NextOutcome.finished]
    | (NextOutcome.suspended, _) => [NextOutcome.suspended]

/-- The drop-oldest buffer step in isolation (the body of `push` in the
no-waiter, not-closed case). -/
def bufPush (maxBuffer : Nat) (buf : List α) (x : α) : List α :=
  let b := buf ++ [x]
  if maxBuffer < b.length then b.tail else b

/-! ## Permission mapping engine

Embeds `normalizePermissions` (identical in both adapters),
`mapUnifiedPermissionsToCodex` (`uagent/src/cli.ts`, Codex provider part)
and `mapUnifiedPermissionsToClaude` with its helpers
(`provider-claude/src/index.ts`).  `PermissionsConfig` fields are optional
booleans in TypeScript; `Boolean(x)` on a possibly-missing field is
`Option.getD · false`.
-/

structure PermissionsConfig where
  network : Option Bool := none
  sandbox : Option Bool := none
  write : Option Bool := none
  yolo : Option Bool := none
deriving DecidableEq, Repr

structure NormalizedPermissions where
  yolo : Bool
  network : Bool
  write : Bool
  sandbox : Bool
deriving DecidableEq, Repr

/-- `normalizePermissions` (same function in both providers): `yolo=true`
forces `network=true, write=true, sandbox=false`. -/
def normalizePermissions (input : PermissionsConfig) : NormalizedPermissions :=
  let yolo := input.yolo.getD false
  { yolo := yolo
    network := if yolo then true else input.network.getD false
    write := if yolo then true else input.write.getD false
    sandbox := if yolo then false else input.sandbox.getD false }

inductive CodexSandboxMode where
  | readOnly
  | workspaceWrite
  | dangerFullAccess
deriving DecidableEq, Repr

inductive CodexApprovalPolicy where
  | never
deriving DecidableEq, Repr

structure CodexThreadOptions where
  approvalPolicy : CodexApprovalPolicy
  sandboxMode : CodexSandboxMode
  networkAccessEnabled : Bool
  webSearchEnabled : Bool
deriving DecidableEq, Repr

/-- `mapUnifiedPermissionsToCodex` (cli.ts): approvals always `never`;
sandbox mode derived from the normalized flags; network and web-search
toggles both follow `network`. -/
def mapUnifiedPermissionsToCodex (input : PermissionsConfig) : CodexThreadOptions :=
  let p := normalizePermissions input
  { approvalPolicy := CodexApprovalPolicy.never
    sandboxMode :=
      if p.yolo then CodexSandboxMode.dangerFullAccess
      else if !p.write then CodexSandboxMode.readOnly
      else if p.sandbox then CodexSandboxMode.workspaceWrite
      else CodexSandboxMode.dangerFullAccess
    networkAccessEnabled := p.network
    webSearchEnabled := p.network }

/-! ### Claude per-tool decision gate -/

/-- The fields of a tool invocation's input object that the gate consults
(`command` for Bash, `file_path` for file tools). -/
structure ToolInput where
  command : Option String := none
  filePath : Option String := none
deriving DecidableEq, Repr

structure ToolMeta where
  blockedPath : Option String := none
deriving DecidableEq, Repr

structure ClaudeWorkspace where
  cwd : Option String := none
  additionalDirs : Option (List String) := none
deriving DecidableEq, Repr

inductive PermissionDecision where
  | allow (updatedInput : ToolInput)
  | deny (message : String) (interrupt : Bool)
deriving DecidableEq, Repr

/-- `isWriteLikeTool`. -/
def isWriteLikeTool (toolName : String) : Bool :=
  toolName == "Write" || toolName == "Edit" || toolName == "NotebookEdit"

/-- String operations re-expressed over the character list so that they
evaluate by kernel reduction (the byte-position-based library versions do
not): `trim`, `contains`, `startsWith`, `endsWith`. -/
def strContainsChar (s : String) (c : Char) : Bool := s.data.contains c

def strStartsWith (s pre : String) : Bool := pre.data.isPrefixOf s.data

def strEndsWith (s post : String) : Bool := post.data.isSuffixOf s.data

/-- `isPathWithinWorkspace`: string-prefix test against the workspace
roots; vacuously true when no workspace or no roots are configured. -/
def isPathWithinWorkspace (path : String) (workspace : Option ClaudeWorkspace) : Bool :=
  match workspace with
  | none => true
  | some w =>
    let cwdRoots := match w.cwd with
      | some c => if c ≠ "" then [c] else []
      | none => []
    let roots := cwdRoots ++ (w.additionalDirs.getD []).filter (fun d => d ≠ "")
    if roots.isEmpty then true
    else roots.any fun r =>
      path == r || strStartsWith path (if strEndsWith r "/" then r else r ++ "/")

/-! ### Regex-lite classifier machinery

The shell-command classifiers call `RegExp.test` on a fixed set of
patterns.  Each pattern is a boundary-delimited alternation of literal
words, possibly with one `\s+` gap, or an anchored `^\s*word\b` check, or
a plain character/substring containment test; they are embedded as
executable matchers over `List Char`.  JavaScript word characters are
ASCII `[A-Za-z0-9_]`; the whitespace class is modelled by its ASCII
members (the inputs at issue are ASCII command strings).
-/

def isWordChar (c : Char) : Bool := c.isAlpha || c.isDigit || c == '_'

def isJsSpace (c : Char) : Bool :=
  c == ' ' || c == '\t' || c == '\n' || c == '\r' || c == '\x0b' || c == '\x0c'

/-- `String.trim` as JavaScript uses it on these command strings. -/
def jsTrim (s : String) : String :=
  String.mk (((s.data.dropWhile isJsSpace).reverse.dropWhile isJsSpace).reverse)

/-- A piece of a pattern: a literal chunk or a `\s+` gap. -/
inductive Pat where
  | lit (chunk : List Char)
  | gap
deriving DecidableEq, Repr

/-- Match a piece list at the head of `s`; return the remaining input.
The `\s+` gap is consumed greedily, which agrees with the regexes here
because no literal chunk after a gap begins with whitespace. -/
def matchPats : List Pat → List Char → Option (List Char)
  | [], s => some s
  | Pat.lit chunk :: ps, s =>
    if chunk.isPrefixOf s then matchPats ps (s.drop chunk.length) else none
  | Pat.gap :: ps, s =>
    match s with
    | [] => none
    | c :: rest =>
      if isJsSpace c then matchPats ps (rest.dropWhile isJsSpace) else none

/-- Word-boundary-delimited match of `pats` starting at the current
position (`prev` is the character just before it).  All patterns used
start and end with word characters, so `\b` amounts to: the previous
character (if any) is a non-word character, and so is the next one. -/
def boundedMatchAt (pats : List Pat) (prev : Option Char) (s : List Char) : Bool :=
  (match prev with
    | none => true
    | some c => !isWordChar c) &&
  (match matchPats pats s with
    | some rest =>
      match rest with
      | [] => true
      | c :: _ => !isWordChar c
    | none => false)

/-- Search `s` for a boundary-delimited occurrence of `pats`. -/
def containsBoundedAux (pats : List Pat) : Option Char → List Char → Bool
  | prev, s =>
    boundedMatchAt pats prev s ||
      match s with
      | [] => false
      | c :: rest => containsBoundedAux pats (some c) rest

def containsBounded (s : String) (pats : List Pat) : Bool :=
  containsBoundedAux pats none s.data

/-- `\bword\b` containment. -/
def containsWord (s : String) (w : String) : Bool :=
  containsBounded s [Pat.lit w.data]

def containsAnyWord (s : String) (ws : List String) : Bool :=
  ws.any (containsWord s)

/-- `\b(pre\s+post)\b` containment (e.g. `sed\s+-i`, `git\s+commit`). -/
def containsWordGapWord (s : String) (pre post : String) : Bool :=
  containsBounded s [Pat.lit pre.data, Pat.gap, Pat.lit post.data]

/-- `^\s*(w₁|w₂|…)\b` anchored test. -/
def startsWithAnyWord (s : String) (ws : List String) : Bool :=
  let t := s.data.dropWhile isJsSpace
  ws.any fun w => boundedMatchAt [Pat.lit w.data] none t

/-- `^\s*git\s+(sub₁|…)\b` anchored test. -/
def startsWithGitSub (s : String) (subs : List String) : Bool :=
  let t := s.data.dropWhile isJsSpace
  subs.any fun sub => boundedMatchAt [Pat.lit "git".data, Pat.gap, Pat.lit sub.data] none t

/-- Plain substring containment (used for the mis-escaped patterns, which
match literal backslash sequences). -/
def containsSeq (sub : List Char) : List Char → Bool
  | [] => sub.isEmpty
  | c :: rest => sub.isPrefixOf (c :: rest) || containsSeq sub rest

def containsSubstring (s : String) (sub : String) : Bool :=
  containsSeq sub.data s.data

/-- In the source the pattern `/\\b(pre\\s+post)\\b/` is written with
doubled backslashes, so it matches the literal text
`\b` ++ pre ++ `\` ++ (one or more `s`) ++ post ++ `\b`. -/
def containsBuggyGapPattern (s : String) (pre post : String) : Bool :=
  (List.range s.length).any fun k =>
    containsSubstring s
      ("\\b" ++ pre ++ "\\" ++ String.mk (List.replicate (k + 1) 's') ++ post ++ "\\b")

def mutatingWords : List String :=
  ["rm", "mv", "cp", "mkdir", "rmdir", "touch", "chmod", "chown", "chgrp",
   "ln", "dd", "truncate", "kill", "pkill", "xargs"]

def inPlaceEditorPairs : List (String × String) :=
  [("sed", "-i"), ("perl", "-i"), ("python", "-c"), ("node", "-e")]

def gitWriteSubcommands : List String :=
  ["commit", "push", "checkout", "switch", "reset", "clean", "rebase",
   "merge", "apply", "cherry-pick", "tag", "stash"]

def networkWords : List String :=
  ["curl", "wget", "nc", "ncat", "ssh", "scp", "sftp", "rsync"]

/-- `isMutatingBashToolInput`.  NOTE: faithfully embeds the source, whose
regex literals here are written with `\\b` and `\\s` (doubled
backslashes), so apart from the `[><]` character class every branch
requires literal backslash text in the command and never fires on an
ordinary shell command. -/
def isMutatingBashToolInput (toolInput : ToolInput) : Bool :=
  match toolInput.command with
  | none => false
  | some command =>
    if jsTrim command == "" then false
    else if strContainsChar command '>' || strContainsChar command '<'
        || containsSubstring command "\\btee\\b" then true
    else if mutatingWords.any
        (fun w => containsSubstring command ("\\b" ++ w ++ "\\b")) then true
    else if inPlaceEditorPairs.any
        (fun pr => containsBuggyGapPattern command pr.1 pr.2) then true
    else if gitWriteSubcommands.any
        (fun sub => containsBuggyGapPattern command "git" sub) then true
    else false

/-- `isReadOnlyBashCommand`.  The `tee` branch shares the doubled-backslash
mistake (observationally harmless here since `tee` is not in the allow
list); the remaining patterns use genuine `\b`/`\s`. -/
def isReadOnlyBashCommand (command : String) (allowNetwork : Bool) : Bool :=
  let c := jsTrim command
  if c == "" then false
  else if strContainsChar c '>' || strContainsChar c '<'
      || containsSubstring c "\\btee\\b" then false
  else if containsAnyWord c mutatingWords then false
  else if inPlaceEditorPairs.any (fun pr => containsWordGapWord c pr.1 pr.2) then false
  else if gitWriteSubcommands.any (fun sub => containsWordGapWord c "git" sub) then false
  else if !allowNetwork
      && (containsAnyWord c networkWords
        || ["clone", "fetch", "pull"].any (fun sub => containsWordGapWord c "git" sub)) then false
  else if startsWithAnyWord c ["ls", "pwd", "whoami", "id", "uname"] then true
  else if startsWithAnyWord c ["cat", "head", "tail", "wc", "stat"] then true
  else if startsWithAnyWord c ["rg", "grep", "find"] then true
  else if startsWithGitSub c ["status", "diff", "log", "show"] then true
  else false

/-- The disallow-list built from the negated flags (plus the interactive
prompt tool). -/
def claudeDisallowedTools (p : NormalizedPermissions) : List String :=
  ["AskUserQuestion"]
    ++ (if !p.network then ["WebFetch", "WebSearch"] else [])
    ++ (if !p.write then ["Write", "Edit", "NotebookEdit", "KillShell"] else [])

/-- The `canUseTool` closure installed by the non-yolo branch of
`mapUnifiedPermissionsToClaude`, as a function of its captured state
(normalized permissions and workspace). -/
def claudeCanUseTool (p : NormalizedPermissions) (workspace : Option ClaudeWorkspace)
    (toolName : String) (toolInput : ToolInput) (meta : ToolMeta) : PermissionDecision :=
  if (claudeDisallowedTools p).contains toolName then
    PermissionDecision.deny ("Tool " ++ toolName ++ " is disabled by unified permissions.") false
  else
    let workspaceDeny : Option String :=
      if p.sandbox && p.write then
        let blocked := match meta.blockedPath with
          | some b => if b ≠ "" then some b else none
          | none => none
        let requested := match toolInput.filePath with
          | some f => if f ≠ "" then some f else none
          | none => none
        let path := match blocked with
          | some b => some b
          | none => requested
        let isWriteTarget :=
          if toolName == "Bash" then isMutatingBashToolInput toolInput
          else isWriteLikeTool toolName
        match path with
        | some pa =>
          if isWriteTarget && !isPathWithinWorkspace pa workspace then some pa else none
        | none => none
      else none
    match workspaceDeny with
    | some pa =>
      PermissionDecision.deny
        ("Path " ++ pa ++ " is outside the session workspace (permissions.sandbox=true).") false
    | none =>
      if toolName == "Bash" && !p.write then
        match toolInput.command with
        | none => PermissionDecision.deny "Bash command is missing." false
        | some command =>
          if jsTrim command == "" then PermissionDecision.deny "Bash command is missing." false
          else if !isReadOnlyBashCommand command p.network then
            PermissionDecision.deny "Bash command denied by unified permissions (write=false)." false
          else PermissionDecision.allow toolInput
      else PermissionDecision.allow toolInput

inductive ClaudePermissionMode where
  | bypassPermissions
  | defaultMode
deriving DecidableEq, Repr

structure ClaudeSandboxOptions where
  enabled : Bool
  autoAllowBashIfSandboxed : Option Bool
deriving DecidableEq, Repr

/-- The subset of Claude `Options` produced by
`mapUnifiedPermissionsToClaude`.  The `canUseTool` callback is carried as
an optional Lean function. -/
structure ClaudePermissionOptions where
  permissionMode : ClaudePermissionMode
  allowDangerouslySkipPermissions : Option Bool
  permissionPromptToolName : Option String
  disallowedTools : Option (List String)
  sandbox : ClaudeSandboxOptions
  canUseTool : Option (String → ToolInput → ToolMeta → PermissionDecision)

/-- `mapUnifiedPermissionsToClaude`. -/
def mapUnifiedPermissionsToClaude (input : PermissionsConfig)
    (workspace : Option ClaudeWorkspace) : ClaudePermissionOptions :=
  let p := normalizePermissions input
  if p.yolo then
    { permissionMode := ClaudePermissionMode.bypassPermissions
      allowDangerouslySkipPermissions := some true
      permissionPromptToolName := none
      disallowedTools := none
      sandbox := { enabled := false, autoAllowBashIfSandboxed := none }
      canUseTool := none }
  else
    { permissionMode := ClaudePermissionMode.defaultMode
      allowDangerouslySkipPermissions := none
      permissionPromptToolName := none
      disallowedTools := some (claudeDisallowedTools p)
      sandbox := { enabled := p.sandbox, autoAllowBashIfSandboxed := some false }
      canUseTool := some (claudeCanUseTool p workspace) }

/-! ## Structured-output schema normalizer

JSON values are modelled by `JValue`; a `Record<string, unknown>` schema is
its field list.  Two variants of `normalizeStructuredOutputSchema` exist in
the repository: the provider-local copies (in the Claude provider and the
Codex provider inside cli.ts), whose unwrap passes any non-wrapper value
through unchanged, and the shared `runtime-core/src/structured-output.ts`
version, whose unwrap falls back to unwrapping a single-property object
when its sole property's value matches the requested root type.
-/

inductive JValue where
  | jnull
  | jbool (b : Bool)
  | jnum (q : Rat)
  | jstr (s : String)
  | jarr (elements : List JValue)
  | jobj (fields : List (String × JValue))

/-- `rootType === "someString"` (strict equality of an unknown against a
string literal). -/
def jTypeIs (v : Option JValue) (s : String) : Bool :=
  match v with
  | some (JValue.jstr t) => t == s
  | _ => false

def lookupField (fields : List (String × JValue)) (key : String) : Option JValue :=
  (fields.find? (fun f => f.1 == key)).map (fun f => f.2)

/-- `value && typeof value === "object" && !Array.isArray(value) && "value" in value`. -/
def hasValueKey : JValue → Bool
  | JValue.jobj fields => fields.any (fun f => f.1 == "value")
  | _ => false

/-- The wrapped schema built for a non-object root. -/
def wrapSchema (fields : List (String × JValue)) : List (String × JValue) :=
  [("type", JValue.jstr "object"),
   ("properties", JValue.jobj [("value", JValue.jobj fields)]),
   ("required", JValue.jarr [JValue.jstr "value"]),
   ("additionalProperties", JValue.jbool false)]

/-- The provider-local unwrap: take the `value` property of a wrapper-shaped
object, otherwise return the value unchanged. -/
def unwrapStructuredOutputSimple (v : JValue) : JValue :=
  match v with
  | JValue.jobj fields =>
    match lookupField fields "value" with
    | some x => x
    | none => v
  | _ => v

/-- `unwrapFallbackSingleProperty` from runtime-core: a single-property
object whose sole property's value matches the requested root type unwraps
to that value; anything else is returned unchanged. -/
def unwrapFallbackSingleProperty (rootType : Option JValue) (v : JValue) : JValue :=
  match v with
  | JValue.jobj fields =>
    match fields with
    | [(_, candidate)] =>
      if jTypeIs rootType "array" then
        match candidate with
        | JValue.jarr _ => candidate
        | _ => v
      else if jTypeIs rootType "string" then
        match candidate with
        | JValue.jstr _ => candidate
        | _ => v
      else if jTypeIs rootType "number" then
        match candidate with
        | JValue.jnum _ => candidate
        | _ => v
      else if jTypeIs rootType "integer" then
        match candidate with
        | JValue.jnum q => if q.den == 1 then candidate else v
        | _ => v
      else if jTypeIs rootType "boolean" then
        match candidate with
        | JValue.jbool _ => candidate
        | _ => v
      else if jTypeIs rootType "null" then
        match candidate with
        | JValue.jnull => candidate
        | _ => v
      else v
    | _ => v
  | _ => v

/-- The runtime-core unwrap closure (for a non-object `rootType`). -/
def unwrapStructuredOutputCore (rootType : Option JValue) (v : JValue) : JValue :=
  match v with
  | JValue.jobj fields =>
    match lookupField fields "value" with
    | some x => x
    | none => unwrapFallbackSingleProperty rootType v
  | _ => unwrapFallbackSingleProperty rootType v

structure NormalizedSchemaResult where
  schemaForProvider : Option (List (String × JValue))
  unwrap : JValue → JValue

/-- `normalizeStructuredOutputSchema` — runtime-core version. -/
def normalizeStructuredOutputSchemaCore
    (schema : Option (List (String × JValue))) : NormalizedSchemaResult :=
  match schema with
  | none => { schemaForProvider := none, unwrap := fun v => v }
  | some fields =>
    let rootType := lookupField fields "type"
    if jTypeIs rootType "object" then
      { schemaForProvider := some fields, unwrap := fun v => v }
    else
      { schemaForProvider := some (wrapSchema fields)
        unwrap := unwrapStructuredOutputCore rootType }

/-- `normalizeStructuredOutputSchema` — the provider-local copies. -/
def normalizeStructuredOutputSchemaProvider
    (schema : Option (List (String × JValue))) : NormalizedSchemaResult :=
  match schema with
  | none => { schemaForProvider := none, unwrap := fun v => v }
  | some fields =>
    let rootType := lookupField fields "type"
    if jTypeIs rootType "object" then
      { schemaForProvider := some fields, unwrap := fun v => v }
    else
      { schemaForProvider := some (wrapSchema fields)
        unwrap := unwrapStructuredOutputSimple }

/-! ## Session/run lifecycle controller

The unified event vocabulary (`RuntimeEvent` in runtime-core), restricted
to the payload the claims inspect.  The `runEvents` generators of both
sessions are embedded as pure functions of: the list of native events the
backend stream yields before it ends, how it ends (`normal` end of stream
or an uncaught `failure`), and the observed value of
`abortController.signal.aborted` at the decision points (the flag is
monotone in the source; the claims about it condition on a fixed value).
Each function returns the list of events pushed to the run's channel, in
push order, together with the `run.completed` value passed to
`resolveResult` (the run's result promise).
-/

inductive RunStatus where
  | success
  | error
  | cancelled
deriving DecidableEq, Repr

inductive REvent where
  | runStarted
  | assistantDelta (textDelta : String)
  | assistantMessage (text : String)
  | toolCall (callId toolName : String)
  | toolResult (callId : String)
  | fileChanged (path kind : String)
  | errorEvent (message : String)
  | providerEvent
  | runCompleted (status : RunStatus) (finalText : Option String)
deriving DecidableEq, Repr

def REvent.isTerminal : REvent → Bool
  | REvent.runCompleted _ _ => true
  | _ => false

/-- How the native backend stream ends after its listed events: normal
exhaustion, or an uncaught exception (the `catch` path). -/
inductive StreamEnding where
  | normal
  | failure
deriving DecidableEq, Repr

/-! ### Claude adapter (`provider-claude/src/index.ts`) -/

/-- The shapes of `SDKMessage` that `mapClaudeMessage` distinguishes:
`stream_event` (with the extracted text delta, if any), `assistant` (with
the joined text blocks, if any), the two `result` subtypes, and anything
else. -/
inductive ClaudeMsg where
  | streamEvent (textDelta : Option String)
  | assistant (text : Option String)
  | resultSuccess (finalText : String)
  | resultError (finalText : Option String)
  | other
deriving DecidableEq, Repr

structure ClaudeMapped where
  events : List REvent
  result : Option (RunStatus × Option String)
deriving DecidableEq, Repr

/-- `mapClaudeMessage` (usage/cost extraction elided). -/
def mapClaudeMessage : ClaudeMsg → ClaudeMapped
  | ClaudeMsg.streamEvent (some d) => ⟨[REvent.assistantDelta d], none⟩
  | ClaudeMsg.streamEvent none => ⟨[], none⟩
  | ClaudeMsg.assistant (some t) => ⟨[REvent.assistantMessage t], none⟩
  | ClaudeMsg.assistant none => ⟨[], none⟩
  | ClaudeMsg.resultSuccess t => ⟨[], some (RunStatus.success, some t)⟩
  | ClaudeMsg.resultError t => ⟨[], some (RunStatus.error, t)⟩
  | ClaudeMsg.other => ⟨[], none⟩

/-- The body of `ClaudeSession.runEvents` after the initial `run.started`:
map each message; on a `result`, yield the terminal event, resolve the
promise and break; otherwise yield a raw passthrough when nothing was
mapped; at end of stream (or on an uncaught failure) synthesize the
terminal event, preceded by an `error` event only when not aborted.
`finalText` is only ever assigned on the `result` branch, so it is `none`
on every synthesized-terminal path. -/
def claudeLoop (ending : StreamEnding) (aborted : Bool) : List ClaudeMsg → List REvent × REvent
  | [] =>
    match ending with
    | StreamEnding.normal =>
      if aborted then
        ([REvent.runCompleted RunStatus.cancelled none],
         REvent.runCompleted RunStatus.cancelled none)
      else
        ([REvent.errorEvent "Claude stream ended without a result.",
          REvent.runCompleted RunStatus.error none],
         REvent.runCompleted RunStatus.error none)
    | StreamEnding.failure =>
      if aborted then
        ([REvent.runCompleted RunStatus.cancelled none],
         REvent.runCompleted RunStatus.cancelled none)
      else
        ([REvent.errorEvent "Claude run failed",
          REvent.runCompleted RunStatus.error none],
         REvent.runCompleted RunStatus.error none)
  | m :: rest =>
    let mapped := mapClaudeMessage m
    match mapped.result with
    | some r =>
      (mapped.events ++ [REvent.runCompleted r.1 r.2], REvent.runCompleted r.1 r.2)
    | none =>
      let extra := if mapped.events.isEmpty then [REvent.providerEvent] else []
      let t := claudeLoop ending aborted rest
      (mapped.events ++ extra ++ t.1, t.2)

/-- `ClaudeSession.runEvents`: `run.started` first, then the loop.  The
driver in `ClaudeSession.run` pushes every yielded event into a fresh
`AsyncEventStream` (capacity 2048) and closes it in the `finally` block,
so the first component is exactly the pushed sequence. -/
def claudeRunEvents (msgs : List ClaudeMsg) (ending : StreamEnding) (aborted : Bool) :
    List REvent × REvent :=
  let t := claudeLoop ending aborted msgs
  (REvent.runStarted :: t.1, t.2)

/-! ### Codex adapter (cli.ts, Codex provider part) -/

/-- The shapes of `ThreadEvent` that `CodexSession.runEvents` and
`mapEvent` distinguish. -/
inductive CodexEvent where
  | threadStarted (threadId : String)
  | turnCompleted (inputTokens outputTokens : Nat)
  | turnFailed
  | errorEvent (message : String)
  | itemStartedCommand (id command : String)
  | itemStartedMcp (id server tool : String)
  | itemStartedWebSearch (id query : String)
  | itemCompletedAgentMessage (id text : String)
  | itemCompletedFileChange (id : String) (completed : Bool) (changes : List (String × String))
  | itemCompletedCommand (id command : String)
  | itemCompletedMcp (id : String)
  | itemCompletedWebSearch (id query : String)
  | otherEvent
deriving DecidableEq, Repr

def normalizeFileChangeKind (k : String) : String :=
  if k == "add" || k == "delete" || k == "update" then k else "unknown"

/-- `CodexSession.mapEvent`: every native event not matched by an
`item.started`/`item.completed` branch (including the terminal
`turn.completed`/`turn.failed`/`error` events and `thread.started`) falls
through to a raw `provider.event`. -/
def mapCodexEvent : CodexEvent → List REvent
  | CodexEvent.itemStartedCommand id _ => [REvent.toolCall id "Bash"]
  | CodexEvent.itemStartedMcp id server tool => [REvent.toolCall id (server ++ "." ++ tool)]
  | CodexEvent.itemStartedWebSearch id _ => [REvent.toolCall id "WebSearch"]
  | CodexEvent.itemCompletedAgentMessage _ t => [REvent.assistantMessage t]
  | CodexEvent.itemCompletedFileChange _ completed changes =>
    if completed then
      changes.map (fun ch => REvent.fileChanged ch.1 (normalizeFileChangeKind ch.2))
    else [REvent.errorEvent "Codex file change patch failed."]
  | CodexEvent.itemCompletedCommand id _ => [REvent.toolResult id]
  | CodexEvent.itemCompletedMcp id => [REvent.toolResult id]
  | CodexEvent.itemCompletedWebSearch id _ => [REvent.toolResult id]
  | _ => [REvent.providerEvent]

/-- The body of `CodexSession.runEvents` after `run.started`: map each
event through `mapEvent`, track `finalText` from completed agent messages,
terminate on `turn.completed` (success), `turn.failed`
(cancelled-if-aborted, else error) or a native `error` event (same status
rule, preceded by a unified `error` event only when not aborted); when the
stream ends or fails without a terminal, synthesize one with the same
status rule.  Structured-output parsing and usage totals are elided. -/
def codexLoop (ending : StreamEnding) (aborted : Bool) :
    List CodexEvent → Option String → List REvent × REvent
  | [], finalText =>
    match ending with
    | StreamEnding.normal =>
      if aborted then
        ([REvent.runCompleted RunStatus.cancelled finalText],
         REvent.runCompleted RunStatus.cancelled finalText)
      else
        ([REvent.errorEvent "Codex stream ended without completion.",
          REvent.runCompleted RunStatus.error finalText],
         REvent.runCompleted RunStatus.error finalText)
    | StreamEnding.failure =>
      if aborted then
        ([REvent.runCompleted RunStatus.cancelled finalText],
         REvent.runCompleted RunStatus.cancelled finalText)
      else
        ([REvent.errorEvent "Codex run failed",
          REvent.runCompleted RunStatus.error finalText],
         REvent.runCompleted RunStatus.error finalText)
  | ev :: rest, finalText =>
    let evs := mapCodexEvent ev
    let ft := match ev with
      | CodexEvent.itemCompletedAgentMessage _ t => some t
      | _ => finalText
    match ev with
    | CodexEvent.turnCompleted _ _ =>
      (evs ++ [REvent.runCompleted RunStatus.success ft],
       REvent.runCompleted RunStatus.success ft)
    | CodexEvent.turnFailed =>
      let st := if aborted then RunStatus.cancelled else RunStatus.error
      (evs ++ [REvent.runCompleted st ft], REvent.runCompleted st ft)
    | CodexEvent.errorEvent msg =>
      let st := if aborted then RunStatus.cancelled else RunStatus.error
      (evs ++ (if aborted then [] else [REvent.errorEvent msg])
           ++ [REvent.runCompleted st ft],
       REvent.runCompleted st ft)
    | _ =>
      let t := codexLoop ending aborted rest ft
      (evs ++ t.1, t.2)

/-- `CodexSession.runEvents`: `run.started` first, then the loop (with no
final text seen yet).  As for Claude, the driver in `CodexSession.run`
pushes every yielded event into a fresh capacity-2048 stream and closes it
in `finally`. -/
def codexRunEvents (evs : List CodexEvent) (ending : StreamEnding) (aborted : Bool) :
    List REvent × REvent :=
  let t := codexLoop ending aborted evs none
  (REvent.runStarted :: t.1, t.2)

/-! ### The single-flight session gate -/

/-- Session state touched by `run()`/`cancel()`: the active run id and the
per-run abort-controller map (run id paired with its aborted flag). -/
structure SessionState where
  activeRunId : Option String
  abortControllers : List (String × Bool)
deriving DecidableEq, Repr

structure SessionBusyError where
  activeRunId : String
deriving DecidableEq, Repr

structure RunStartInfo where
  runId : String
deriving DecidableEq, Repr

/-- The synchronous head of `ClaudeSession.run` / `CodexSession.run`
(identical in both): throw `SessionBusyError(activeRunId)` when a run is
active — before allocating an abort controller, before touching any state
and before the backend call; otherwise register the new run.  Returning
`Except.ok` is what marks that the channel was allocated and the backend
call started. -/
def sessionRunStart (s : SessionState) (newRunId : String) :
    SessionState × Except SessionBusyError RunStartInfo :=
  match s.activeRunId with
  | some rid => (s, Except.error ⟨rid⟩)
  | none =>
    ({ activeRunId := some newRunId,
       abortControllers := s.abortControllers ++ [(newRunId, false)] },
     Except.ok ⟨newRunId⟩)

/-! ### Derived definitions used by the theorem statements -/

/-- Stream operations available after the handle is returned (used to state
that the single-consumption guard is permanent). -/
inductive StreamOp (α : Type) where
  | push (x : α)
  | close
  | next
deriving DecidableEq, Repr

def AsyncEventStream.applyOp {α : Type} (s : AsyncEventStream α) :
    StreamOp α → AsyncEventStream α
  | StreamOp.push x => (s.push x).1
  | StreamOp.close => s.close
  | StreamOp.next => s.next.2

/-- Did this Claude message carry a `result` (terminal) payload? -/
def claudeMsgIsResult : ClaudeMsg → Bool
  | ClaudeMsg.resultSuccess _ => true
  | ClaudeMsg.resultError _ => true
  | _ => false

/-- Does this Codex event terminate the loop? -/
def codexEventIsTerminal : CodexEvent → Bool
  | CodexEvent.turnCompleted _ _ => true
  | CodexEvent.turnFailed => true
  | CodexEvent.errorEvent _ => true
  | _ => false

/-- The unified events a terminal-free Claude message list contributes
before any synthesized terminal. -/
def claudeNonTerminalPrefix (msgs : List ClaudeMsg) : List REvent :=
  msgs.foldr
    (fun m acc =>
      let mapped := mapClaudeMessage m
      mapped.events ++ (if mapped.events.isEmpty then [REvent.providerEvent] else []) ++ acc)
    []

/-- The unified events a terminal-free Codex event list contributes. -/
def codexNonTerminalPrefix (evs : List CodexEvent) : List REvent :=
  evs.foldr (fun ev acc => mapCodexEvent ev ++ acc) []

/-- The `finalText` tracked by the Codex loop after processing `evs`. -/
def codexFinalTextAfter (evs : List CodexEvent) (ft : Option String) : Option String :=
  evs.foldl
    (fun acc ev =>
      match ev with
      | CodexEvent.itemCompletedAgentMessage _ t => some t
      | _ => acc)
    ft

/-- The run's event channel after the driver pushed all generated events
(with no consumer attached) and closed it: `new AsyncEventStream()` has
capacity 2048. -/
def runChannelAfter (evs : List REvent) : AsyncEventStream REvent :=
  ((AsyncEventStream.new REvent 2048).pushAll evs).close

/-! ## Supporting lemmas -/

lemma AsyncEventStream.push_fst_of_open {α : Type} (s : AsyncEventStream α) (x : α)
    (hc : s.closed = false) (hp : s.pendingCount = 0) :
    (s.push x).1 = { s with buffer := bufPush s.maxBuffer s.buffer x } := by
  simp [AsyncEventStream.push, hc, hp, bufPush]

lemma AsyncEventStream.pushAll_of_open {α : Type} (xs : List α) :
    ∀ (s : AsyncEventStream α), s.closed = false → s.pendingCount = 0 →
      s.pushAll xs = { s with buffer := xs.foldl (bufPush s.maxBuffer) s.buffer } := by
  induction xs with
  | nil => intro s _ _; simp [AsyncEventStream.pushAll]
  | cons x rest ih =>
    intro s hc hp
    have hstep := AsyncEventStream.push_fst_of_open s x hc hp
    simp only [AsyncEventStream.pushAll, List.foldl_cons] at *
    rw [hstep]
    have := ih { s with buffer := bufPush s.maxBuffer s.buffer x } (by simp [hc]) (by simp [hp])
    simpa [AsyncEventStream.pushAll] using this

lemma bufPush_foldl (maxBuffer : Nat) (xs : List α) :
    ∀ (buf : List α), buf.length ≤ maxBuffer →
      xs.foldl (bufPush maxBuffer) buf =
        (buf ++ xs).drop (buf.length + xs.length - maxBuffer) := by
  induction xs with
  | nil =>
    intro buf h
    simp [Nat.sub_eq_zero_of_le h]
  | cons x rest ih =>
    intro buf h
    simp only [List.foldl_cons]
    have hdef : bufPush maxBuffer buf x =
        if maxBuffer < (buf ++ [x]).length then (buf ++ [x]).tail else buf ++ [x] := rfl
    rcases Nat.lt_or_ge buf.length maxBuffer with hlt | hge
    · have hstep : bufPush maxBuffer buf x = buf ++ [x] := by
        rw [hdef, if_neg]
        simp only [List.length_append, List.length_cons, List.length_nil]
        omega
      rw [hstep, ih (buf ++ [x]) (by simp; omega)]
      have hassoc : (buf ++ [x]) ++ rest = buf ++ x :: rest := by simp
      rw [hassoc]
      congr 1
      simp only [List.length_append, List.length_cons, List.length_nil]
      omega
    · have heq : buf.length = maxBuffer := Nat.le_antisymm h hge
      have hstep : bufPush maxBuffer buf x = (buf ++ [x]).drop 1 := by
        rw [hdef, if_pos, ← List.drop_one]
        simp only [List.length_append, List.length_cons, List.length_nil]
        omega
      rw [hstep]
      have hlen : ((buf ++ [x]).drop 1).length ≤ maxBuffer := by
        simp only [List.length_drop, List.length_append, List.length_cons, List.length_nil]
        omega
      rw [ih _ hlen]
      have hsplit : (buf ++ [x]).drop 1 ++ rest = (buf ++ x :: rest).drop 1 := by
        cases buf <;> simp
      rw [hsplit, List.drop_drop]
      congr 1
      simp only [List.length_drop, List.length_append, List.length_cons, List.length_nil]
      omega

lemma AsyncEventStream.consumeTrace_succ {α : Type} (fuel : Nat) (s : AsyncEventStream α) :
    s.consumeTrace (fuel + 1) =
      (match s.next with
        | (NextOutcome.item x, t) => NextOutcome.item x :: t.consumeTrace fuel
        | (NextOutcome.finished, _) => [NextOutcome.finished]
        | (NextOutcome.suspended, _) => [NextOutcome.suspended]) := rfl

lemma AsyncEventStream.consumeTrace_closed {α : Type} :
    ∀ (buf : List α) (s : AsyncEventStream α), s.closed = true → s.buffer = buf →
      s.consumeTrace (buf.length + 1) = buf.map NextOutcome.item ++ [NextOutcome.finished] := by
  intro buf
  induction buf with
  | nil =>
    intro s hc hb
    rw [List.length_nil, AsyncEventStream.consumeTrace_succ]
    simp [AsyncEventStream.next, hb, hc]
  | cons x rest ih =>
    intro s hc hb
    have hnext : s.next = (NextOutcome.item x, { s with buffer := rest }) := by
      simp [AsyncEventStream.next, hb]
    rw [show (x :: rest).length + 1 = rest.length + 1 + 1 by simp]
    rw [AsyncEventStream.consumeTrace_succ, hnext]
    have hrec := ih { s with buffer := rest } (by simp [hc]) rfl
    simp [hrec]

lemma getLast?_append_right {α : Type} (l₁ l₂ : List α) (h : l₂ ≠ []) :
    (l₁ ++ l₂).getLast? = l₂.getLast? := by
  rw [List.getLast?_append]
  cases hl : l₂.getLast? with
  | some b => rfl
  | none => exact absurd (List.getLast?_eq_none_iff.mp hl) h

lemma getLast?_drop_of_lt {α : Type} :
    ∀ (l : List α) (n : Nat), n < l.length → (l.drop n).getLast? = l.getLast? := by
  intro l
  induction l with
  | nil => intro n h; simp at h
  | cons x xs ih =>
    intro n h
    cases n with
    | zero => rfl
    | succ m =>
      have hm : m < xs.length := by simpa using h
      have hne : xs ≠ [] := by
        intro hx
        rw [hx] at hm
        simp at hm
      rw [List.drop_succ_cons, ih m hm]
      obtain ⟨y, ys, rfl⟩ := List.exists_cons_of_ne_nil hne
      exact (List.getLast?_cons_cons).symm

lemma runChannelAfter_buffer {evs : List REvent} :
    (runChannelAfter evs).buffer = evs.drop (evs.length - 2048) := by
  unfold runChannelAfter
  rw [AsyncEventStream.pushAll_of_open evs (AsyncEventStream.new REvent 2048) rfl rfl]
  rw [show (AsyncEventStream.new REvent 2048).buffer = ([] : List REvent) from rfl]
  rw [show (AsyncEventStream.new REvent 2048).maxBuffer = 2048 from rfl]
  rw [bufPush_foldl 2048 evs [] (by simp)]
  simp [AsyncEventStream.close, AsyncEventStream.new]

lemma runChannelAfter_getLast {evs : List REvent} (h : evs ≠ []) :
    (runChannelAfter evs).buffer.getLast? = evs.getLast? := by
  rw [runChannelAfter_buffer]
  apply getLast?_drop_of_lt
  have : 0 < evs.length := List.length_pos.mpr h
  omega

lemma mapClaudeMessage_events_countP (m : ClaudeMsg) :
    (mapClaudeMessage m).events.countP REvent.isTerminal = 0 := by
  cases m with
  | streamEvent d => cases d <;> simp [mapClaudeMessage, List.countP_cons, REvent.isTerminal]
  | assistant t => cases t <;> simp [mapClaudeMessage, List.countP_cons, REvent.isTerminal]
  | resultSuccess t => simp [mapClaudeMessage]
  | resultError t => simp [mapClaudeMessage]
  | other => simp [mapClaudeMessage]

lemma mapCodexEvent_countP (ev : CodexEvent) :
    (mapCodexEvent ev).countP REvent.isTerminal = 0 := by
  cases ev with
  | itemCompletedFileChange id completed changes =>
    cases completed with
    | true =>
      simp only [mapCodexEvent, if_pos]
      rw [List.countP_eq_zero]
      intro a ha
      obtain ⟨ch, _, rfl⟩ := List.mem_map.mp ha
      simp [REvent.isTerminal]
    | false => simp [mapCodexEvent, List.countP_cons, REvent.isTerminal]
  | _ => simp [mapCodexEvent, List.countP_cons, REvent.isTerminal]

/-- The Claude loop always ends in exactly one terminal event, which is the
last event emitted and the value handed to `resolveResult`. -/
lemma claudeLoop_spec (ending : StreamEnding) (aborted : Bool) :
    ∀ msgs : List ClaudeMsg,
      (claudeLoop ending aborted msgs).1.getLast? = some (claudeLoop ending aborted msgs).2
      ∧ (claudeLoop ending aborted msgs).2.isTerminal = true
      ∧ (claudeLoop ending aborted msgs).1.countP REvent.isTerminal = 1 := by
  intro msgs
  induction msgs with
  | nil => cases ending <;> cases aborted <;> decide
  | cons m rest ih =>
    cases hr : (mapClaudeMessage m).result with
    | some r =>
      have hev := mapClaudeMessage_events_countP m
      simp only [claudeLoop, hr]
      refine ⟨getLast?_append_right _ _ (by simp), rfl, ?_⟩
      rw [List.countP_append, hev]
      simp [REvent.isTerminal]
    | none =>
      obtain ⟨ih1, ih2, ih3⟩ := ih
      have hev := mapClaudeMessage_events_countP m
      have htne : (claudeLoop ending aborted rest).1 ≠ [] := by
        intro hx
        rw [hx] at ih1
        simp at ih1
      simp only [claudeLoop, hr]
      refine ⟨?_, ih2, ?_⟩
      · rw [List.append_assoc, getLast?_append_right _ _ (by
          intro hx
          rcases List.append_eq_nil.mp hx with ⟨_, h2⟩
          exact htne h2)]
        rw [getLast?_append_right _ _ htne]
        exact ih1
      · rw [List.append_assoc, List.countP_append, List.countP_append, hev, ih3]
        cases hmt : (mapClaudeMessage m).events.isEmpty <;>
          simp [List.countP_cons, REvent.isTerminal]

/-- Same for the Codex loop (with the tracked final text generalized). -/
lemma codexLoop_spec (ending : StreamEnding) (aborted : Bool) :
    ∀ (evs : List CodexEvent) (ft : Option String),
      (codexLoop ending aborted evs ft).1.getLast? = some (codexLoop ending aborted evs ft).2
      ∧ (codexLoop ending aborted evs ft).2.isTerminal = true
      ∧ (codexLoop ending aborted evs ft).1.countP REvent.isTerminal = 1 := by
  intro evs
  induction evs with
  | nil =>
    intro ft
    cases ending <;> cases aborted <;>
      simp [codexLoop, List.countP_cons, REvent.isTerminal]
  | cons ev rest ih =>
    intro ft
    have hev := mapCodexEvent_countP ev
    cases ev with
    | turnCompleted i o =>
      simp only [codexLoop]
      refine ⟨getLast?_append_right _ _ (by simp), rfl, ?_⟩
      rw [List.countP_append, hev]
      simp [REvent.isTerminal]
    | turnFailed =>
      simp only [codexLoop]
      refine ⟨getLast?_append_right _ _ (by simp), rfl, ?_⟩
      rw [List.countP_append, hev]
      simp [REvent.isTerminal]
    | errorEvent msg =>
      simp only [codexLoop]
      refine ⟨?_, rfl, ?_⟩
      · rw [List.append_assoc, getLast?_append_right _ _ (by
          intro hx
          rcases List.append_eq_nil.mp hx with ⟨_, h2⟩
          simp at h2)]
        rw [getLast?_append_right _ _ (by simp)]
        rfl
      · rw [List.append_assoc, List.countP_append, List.countP_append, hev]
        cases aborted <;> simp [List.countP_cons, REvent.isTerminal]
    | threadStarted tid =>
      obtain ⟨ih1, ih2, ih3⟩ := ih ft
      have htne : (codexLoop ending aborted rest ft).1 ≠ [] := by
        intro hx; rw [hx] at ih1; simp at ih1
      simp only [codexLoop]
      exact ⟨by rw [getLast?_append_right _ _ htne]; exact ih1, ih2,
        by rw [List.countP_append, hev, ih3]⟩
    | itemStartedCommand id command =>
      obtain ⟨ih1, ih2, ih3⟩ := ih ft
      have htne : (codexLoop ending aborted rest ft).1 ≠ [] := by
        intro hx; rw [hx] at ih1; simp at ih1
      simp only [codexLoop]
      exact ⟨by rw [getLast?_append_right _ _ htne]; exact ih1, ih2,
        by rw [List.countP_append, hev, ih3]⟩
    | itemStartedMcp id server tool =>
      obtain ⟨ih1, ih2, ih3⟩ := ih ft
      have htne : (codexLoop ending aborted rest ft).1 ≠ [] := by
        intro hx; rw [hx] at ih1; simp at ih1
      simp only [codexLoop]
      exact ⟨by rw [getLast?_append_right _ _ htne]; exact ih1, ih2,
        by rw [List.countP_append, hev, ih3]⟩
    | itemStartedWebSearch id query =>
      obtain ⟨ih1, ih2, ih3⟩ := ih ft
      have htne : (codexLoop ending aborted rest ft).1 ≠ [] := by
        intro hx; rw [hx] at ih1; simp at ih1
      simp only [codexLoop]
      exact ⟨by rw [getLast?_append_right _ _ htne]; exact ih1, ih2,
        by rw [List.countP_append, hev, ih3]⟩
    | itemCompletedAgentMessage id text =>
      obtain ⟨ih1, ih2, ih3⟩ := ih (some text)
      have htne : (codexLoop ending aborted rest (some text)).1 ≠ [] := by
        intro hx; rw [hx] at ih1; simp at ih1
      simp only [codexLoop]
      exact ⟨by rw [getLast?_append_right _ _ htne]; exact ih1, ih2,
        by rw [List.countP_append, hev, ih3]⟩
    | itemCompletedFileChange id completed changes =>
      obtain ⟨ih1, ih2, ih3⟩ := ih ft
      have htne : (codexLoop ending aborted rest ft).1 ≠ [] := by
        intro hx; rw [hx] at ih1; simp at ih1
      simp only [codexLoop]
      exact ⟨by rw [getLast?_append_right _ _ htne]; exact ih1, ih2,
        by rw [List.countP_append, hev, ih3]⟩
    | itemCompletedCommand id command =>
      obtain ⟨ih1, ih2, ih3⟩ := ih ft
      have htne : (codexLoop ending aborted rest ft).1 ≠ [] := by
        intro hx; rw [hx] at ih1; simp at ih1
      simp only [codexLoop]
      exact ⟨by rw [getLast?_append_right _ _ htne]; exact ih1, ih2,
        by rw [List.countP_append, hev, ih3]⟩
    | itemCompletedMcp id =>
      obtain ⟨ih1, ih2, ih3⟩ := ih ft
      have htne : (codexLoop ending aborted rest ft).1 ≠ [] := by
        intro hx; rw [hx] at ih1; simp at ih1
      simp only [codexLoop]
      exact ⟨by rw [getLast?_append_right _ _ htne]; exact ih1, ih2,
        by rw [List.countP_append, hev, ih3]⟩
    | itemCompletedWebSearch id query =>
      obtain ⟨ih1, ih2, ih3⟩ := ih ft
      have htne : (codexLoop ending aborted rest ft).1 ≠ [] := by
        intro hx; rw [hx] at ih1; simp at ih1
      simp only [codexLoop]
      exact ⟨by rw [getLast?_append_right _ _ htne]; exact ih1, ih2,
        by rw [List.countP_append, hev, ih3]⟩
    | otherEvent =>
      obtain ⟨ih1, ih2, ih3⟩ := ih ft
      have htne : (codexLoop ending aborted rest ft).1 ≠ [] := by
        intro hx; rw [hx] at ih1; simp at ih1
      simp only [codexLoop]
      exact ⟨by rw [getLast?_append_right _ _ htne]; exact ih1, ih2,
        by rw [List.countP_append, hev, ih3]⟩

/-! ## Claim theorems -/

/-- C5: for every bounded event channel with capacity N and every k > 0,
pushing N+k items and then closing yields to the single consumer exactly
the last N pushed items, in push order, followed by end-of-sequence
(each push beyond capacity evicts the oldest buffered item). -/
theorem C5_drop_oldest_keeps_last_capacity_items
    {α : Type} (maxBuffer k : Nat) (xs : List α)
    (hk : 0 < k) (hlen : xs.length = maxBuffer + k) :
    (((AsyncEventStream.new α maxBuffer).pushAll xs).close).consumeTrace (maxBuffer + 1)
      = (xs.drop k).map NextOutcome.item ++ [NextOutcome.finished]
    ∧ (xs.drop k).length = maxBuffer := by
  have hfoldl : xs.foldl (bufPush maxBuffer) ([] : List α) = xs.drop k := by
    rw [bufPush_foldl maxBuffer xs [] (by simp)]
    simp only [List.length_nil, List.nil_append, Nat.zero_add, hlen,
      Nat.add_sub_cancel_left]
  have hlendrop : (xs.drop k).length = maxBuffer := by
    simp [List.length_drop, hlen]
  have hpush := AsyncEventStream.pushAll_of_open xs (AsyncEventStream.new α maxBuffer) rfl rfl
  refine ⟨?_, hlendrop⟩
  rw [hpush]
  have hstate :
      ({ AsyncEventStream.new α maxBuffer with
          buffer := xs.foldl (bufPush (AsyncEventStream.new α maxBuffer).maxBuffer)
            (AsyncEventStream.new α maxBuffer).buffer }).close
        = ({ maxBuffer := maxBuffer, buffer := xs.drop k, pendingCount := 0,
             closed := true, iteratorCreated := false } : AsyncEventStream α) := by
    simp [AsyncEventStream.close, AsyncEventStream.new, hfoldl]
  rw [hstate]
  have := AsyncEventStream.consumeTrace_closed (xs.drop k)
    ({ maxBuffer := maxBuffer, buffer := xs.drop k, pendingCount := 0,
       closed := true, iteratorCreated := false } : AsyncEventStream α) rfl rfl
  rw [hlendrop] at this
  exact this

/-- Witness for C5 at N = 2, k = 1, xs = [10, 20, 30]. -/
theorem C5_drop_oldest_witness :
    0 < 1 ∧ ([10, 20, 30] : List Nat).length = 2 + 1
    ∧ (((AsyncEventStream.new Nat 2).pushAll [10, 20, 30]).close).consumeTrace (2 + 1)
        = [NextOutcome.item 20, NextOutcome.item 30, NextOutcome.finished]
    ∧ (([10, 20, 30] : List Nat).drop 1).length = 2 := by
  refine ⟨by decide, by decide, ?_, by decide⟩
  have h := C5_drop_oldest_keeps_last_capacity_items 2 1 ([10, 20, 30] : List Nat)
    (by decide) (by decide)
  exact h.1.trans (by decide)

/-- C9: the first request for the asynchronous iterator succeeds, and every
later attempt to start a second consumption sequence fails by throwing,
regardless of the operations performed in between. -/
theorem C9_single_consumption_guard
    {α : Type} (s : AsyncEventStream α) (h : s.iteratorCreated = false) :
    ∃ s', s.iterate = Except.ok s'
      ∧ ∀ ops : List (StreamOp α),
          (ops.foldl AsyncEventStream.applyOp s').iterate
            = Except.error "RunHandle.events can only be consumed once." := by
  refine ⟨{ s with iteratorCreated := true }, by simp [AsyncEventStream.iterate, h], ?_⟩
  have hpreserve : ∀ (t : AsyncEventStream α) (op : StreamOp α),
      (t.applyOp op).iteratorCreated = t.iteratorCreated := by
    intro t op
    cases op with
    | push x =>
      simp only [AsyncEventStream.applyOp, AsyncEventStream.push]
      by_cases hc : t.closed = true
      · simp [hc]
      · simp only [Bool.not_eq_true] at hc
        by_cases hp : 0 < t.pendingCount <;> simp [hc, hp]
    | close =>
      simp only [AsyncEventStream.applyOp, AsyncEventStream.close]
      by_cases hc : t.closed = true <;> simp [hc]
    | next =>
      simp only [AsyncEventStream.applyOp, AsyncEventStream.next]
      cases hb : t.buffer with
      | nil =>
        by_cases hc : t.closed = true <;> simp [hc]
      | cons x rest => simp
  have hall : ∀ (ops : List (StreamOp α)) (t : AsyncEventStream α),
      t.iteratorCreated = true → (ops.foldl AsyncEventStream.applyOp t).iteratorCreated = true := by
    intro ops
    induction ops with
    | nil => intro t ht; simpa using ht
    | cons op rest ih =>
      intro t ht
      simp only [List.foldl_cons]
      exact ih (t.applyOp op) (by rw [hpreserve]; exact ht)
  intro ops
  have := hall ops { s with iteratorCreated := true } rfl
  simp [AsyncEventStream.iterate, this]

/-- Witness for C9 on a fresh stream of capacity 3. -/
theorem C9_single_consumption_witness :
    (AsyncEventStream.new Nat 3).iteratorCreated = false
    ∧ ∃ s', (AsyncEventStream.new Nat 3).iterate = Except.ok s'
        ∧ ∀ ops : List (StreamOp Nat),
            (ops.foldl AsyncEventStream.applyOp s').iterate
              = Except.error "RunHandle.events can only be consumed once." :=
  ⟨rfl, C9_single_consumption_guard (AsyncEventStream.new Nat 3) rfl⟩

/-- C10: on a closed channel, `push` is a no-op — the state (buffer and
suspended consumers alike) is unchanged and the item is silently dropped
(nothing is delivered and no error is raised). -/
theorem C10_push_after_close_is_noop
    {α : Type} (s : AsyncEventStream α) (x : α) (h : s.closed = true) :
    s.push x = (s, none) := by
  simp [AsyncEventStream.push, h]

/-- Witness for C10: push onto a freshly closed stream. -/
theorem C10_push_after_close_witness :
    ((AsyncEventStream.new Nat 2).close).closed = true
    ∧ ((AsyncEventStream.new Nat 2).close).push 7
        = ((AsyncEventStream.new Nat 2).close, none) :=
  ⟨by decide, C10_push_after_close_is_noop ((AsyncEventStream.new Nat 2).close) 7 (by decide)⟩

/-- C2: `run()` on a session with an active run fails immediately with a
busy error naming the active run id; the session state (including the
active run's abort-controller entry) is returned unchanged, and no
`RunStartInfo` is produced — i.e. no channel is allocated and no backend
call is started, so the active run is unaffected. -/
theorem C2_second_run_rejected_busy
    (s : SessionState) (newRunId rid : String) (h : s.activeRunId = some rid) :
    sessionRunStart s newRunId = (s, Except.error ⟨rid⟩) := by
  simp [sessionRunStart, h]

/-- Witness for C2: a session busy with run-1 rejects run-2. -/
theorem C2_second_run_rejected_witness :
    (({ activeRunId := some "run-1", abortControllers := [("run-1", false)] } : SessionState).activeRunId
        = some "run-1")
    ∧ sessionRunStart
        { activeRunId := some "run-1", abortControllers := [("run-1", false)] } "run-2"
      = ({ activeRunId := some "run-1", abortControllers := [("run-1", false)] },
         Except.error ⟨"run-1"⟩) :=
  ⟨rfl, C2_second_run_rejected_busy
    { activeRunId := some "run-1", abortControllers := [("run-1", false)] } "run-2" "run-1" rfl⟩

/-- C6: with `yolo=true`, normalization forces `network=true, write=true,
sandbox=false` regardless of the other fields, and both backend mappings
(which consume only the normalized config) end up with network and web
search enabled, writes enabled, sandboxing disabled; the Claude mapping
installs no per-tool gate (`canUseTool` unset) and no disallow list. -/
theorem C6_yolo_forces_full_autonomy
    (input : PermissionsConfig) (ws : Option ClaudeWorkspace) (h : input.yolo = some true) :
    normalizePermissions input
        = { yolo := true, network := true, write := true, sandbox := false }
    ∧ mapUnifiedPermissionsToCodex input
        = { approvalPolicy := CodexApprovalPolicy.never
            sandboxMode := CodexSandboxMode.dangerFullAccess
            networkAccessEnabled := true
            webSearchEnabled := true }
    ∧ (mapUnifiedPermissionsToClaude input ws).permissionMode
        = ClaudePermissionMode.bypassPermissions
    ∧ (mapUnifiedPermissionsToClaude input ws).allowDangerouslySkipPermissions = some true
    ∧ (mapUnifiedPermissionsToClaude input ws).sandbox
        = { enabled := false, autoAllowBashIfSandboxed := none }
    ∧ (mapUnifiedPermissionsToClaude input ws).canUseTool = none
    ∧ (mapUnifiedPermissionsToClaude input ws).disallowedTools = none := by
  have hn : normalizePermissions input
      = { yolo := true, network := true, write := true, sandbox := false } := by
    simp [normalizePermissions, h]
  refine ⟨hn, ?_, ?_, ?_, ?_, ?_, ?_⟩ <;>
    simp [mapUnifiedPermissionsToCodex, mapUnifiedPermissionsToClaude, hn]

/-- Witness for C6: yolo set alongside contradictory literal fields. -/
theorem C6_yolo_forces_full_autonomy_witness :
    ({ network := some false, sandbox := some true, write := some false,
       yolo := some true } : PermissionsConfig).yolo = some true
    ∧ normalizePermissions
        { network := some false, sandbox := some true, write := some false, yolo := some true }
      = { yolo := true, network := true, write := true, sandbox := false }
    ∧ (mapUnifiedPermissionsToClaude
        { network := some false, sandbox := some true, write := some false, yolo := some true }
        none).canUseTool = none := by
  have h := C6_yolo_forces_full_autonomy
    { network := some false, sandbox := some true, write := some false, yolo := some true }
    none rfl
  exact ⟨rfl, h.1, h.2.2.2.2.2.1⟩

/-- C7: for every normalized non-yolo config, the Codex mapping disables
approvals, sets both network toggles to the `network` flag, and derives
the sandbox mode from the common table: `write=false` is read-only (also
when `sandbox=false`), `sandbox=true ∧ write=true` is workspace-write,
`sandbox=false ∧ write=true` is danger-full-access. -/
theorem C7_codex_mapping_table
    (input : PermissionsConfig) (h : (normalizePermissions input).yolo = false) :
    (mapUnifiedPermissionsToCodex input).approvalPolicy = CodexApprovalPolicy.never
    ∧ (mapUnifiedPermissionsToCodex input).networkAccessEnabled
        = (normalizePermissions input).network
    ∧ (mapUnifiedPermissionsToCodex input).webSearchEnabled
        = (normalizePermissions input).network
    ∧ ((normalizePermissions input).write = false →
        (mapUnifiedPermissionsToCodex input).sandboxMode = CodexSandboxMode.readOnly)
    ∧ ((normalizePermissions input).sandbox = true → (normalizePermissions input).write = true →
        (mapUnifiedPermissionsToCodex input).sandboxMode = CodexSandboxMode.workspaceWrite)
    ∧ ((normalizePermissions input).sandbox = false → (normalizePermissions input).write = true →
        (mapUnifiedPermissionsToCodex input).sandboxMode = CodexSandboxMode.dangerFullAccess) := by
  refine ⟨rfl, rfl, rfl, ?_, ?_, ?_⟩
  · intro hw
    simp [mapUnifiedPermissionsToCodex, h, hw]
  · intro hs hw
    simp [mapUnifiedPermissionsToCodex, h, hs, hw]
  · intro hs hw
    simp [mapUnifiedPermissionsToCodex, h, hs, hw]

/-- Witness for C7: `sandbox=false, write=false` collapses to read-only. -/
theorem C7_codex_mapping_table_witness :
    (normalizePermissions
        { network := none, sandbox := some false, write := some false, yolo := none }).yolo = false
    ∧ (normalizePermissions
        { network := none, sandbox := some false, write := some false, yolo := none }).write = false
    ∧ (mapUnifiedPermissionsToCodex
        { network := none, sandbox := some false, write := some false, yolo := none }).sandboxMode
      = CodexSandboxMode.readOnly := by
  have h := C7_codex_mapping_table
    { network := none, sandbox := some false, write := some false, yolo := none } rfl
  exact ⟨rfl, rfl, h.2.2.2.1 rfl⟩

/-- C1: for every run of either backend, the result promise resolves with
exactly the `run-completed` event that is the last event pushed to the
run's channel before it closes.  The pushed sequence contains exactly one
terminal event; the closed channel's remaining buffer (what a consumer
would drain) also ends with that same event, so the resolved status equals
the status of the last event a consumer would observe.  The functions
`claudeRunEvents`/`codexRunEvents` compute the pushed sequence and the
resolved value from the run's inputs alone, independent of any consumer,
which is resolution-without-consumption by construction. -/
theorem C1_result_resolves_with_last_pushed_terminal
    (cmsgs : List ClaudeMsg) (xevs : List CodexEvent)
    (ending : StreamEnding) (aborted : Bool) :
    ((claudeRunEvents cmsgs ending aborted).1.getLast?
        = some (claudeRunEvents cmsgs ending aborted).2
      ∧ (claudeRunEvents cmsgs ending aborted).2.isTerminal = true
      ∧ (claudeRunEvents cmsgs ending aborted).1.countP REvent.isTerminal = 1
      ∧ (runChannelAfter (claudeRunEvents cmsgs ending aborted).1).buffer.getLast?
          = some (claudeRunEvents cmsgs ending aborted).2)
    ∧ ((codexRunEvents xevs ending aborted).1.getLast?
        = some (codexRunEvents xevs ending aborted).2
      ∧ (codexRunEvents xevs ending aborted).2.isTerminal = true
      ∧ (codexRunEvents xevs ending aborted).1.countP REvent.isTerminal = 1
      ∧ (runChannelAfter (codexRunEvents xevs ending aborted).1).buffer.getLast?
          = some (codexRunEvents xevs ending aborted).2) := by
  obtain ⟨hc1, hc2, hc3⟩ := claudeLoop_spec ending aborted cmsgs
  obtain ⟨hx1, hx2, hx3⟩ := codexLoop_spec ending aborted xevs none
  have hcne : (claudeLoop ending aborted cmsgs).1 ≠ [] := by
    intro hx; rw [hx] at hc1; simp at hc1
  have hxne : (codexLoop ending aborted xevs none).1 ≠ [] := by
    intro hx; rw [hx] at hx1; simp at hx1
  have hclast : (claudeRunEvents cmsgs ending aborted).1.getLast?
      = some (claudeRunEvents cmsgs ending aborted).2 := by
    simp only [claudeRunEvents]
    rw [show (REvent.runStarted :: (claudeLoop ending aborted cmsgs).1)
        = [REvent.runStarted] ++ (claudeLoop ending aborted cmsgs).1 from rfl]
    rw [getLast?_append_right _ _ hcne]
    exact hc1
  have hxlast : (codexRunEvents xevs ending aborted).1.getLast?
      = some (codexRunEvents xevs ending aborted).2 := by
    simp only [codexRunEvents]
    rw [show (REvent.runStarted :: (codexLoop ending aborted xevs none).1)
        = [REvent.runStarted] ++ (codexLoop ending aborted xevs none).1 from rfl]
    rw [getLast?_append_right _ _ hxne]
    exact hx1
  refine ⟨⟨hclast, hc2, ?_, ?_⟩, hxlast, hx2, ?_, ?_⟩
  · simp only [claudeRunEvents]
    rw [List.countP_cons]
    simp [REvent.isTerminal, hc3]
  · rw [runChannelAfter_getLast (by simp [claudeRunEvents])]
    exact hclast
  · simp only [codexRunEvents]
    rw [List.countP_cons]
    simp [REvent.isTerminal, hx3]
  · rw [runChannelAfter_getLast (by simp [codexRunEvents])]
    exact hxlast

lemma mapClaudeMessage_result_none {m : ClaudeMsg} (h : claudeMsgIsResult m = false) :
    (mapClaudeMessage m).result = none := by
  cases m with
  | streamEvent d => cases d <;> rfl
  | assistant t => cases t <;> rfl
  | resultSuccess t => simp [claudeMsgIsResult] at h
  | resultError t => simp [claudeMsgIsResult] at h
  | other => rfl

lemma claudeLoop_failure_of_no_result (aborted : Bool) :
    ∀ msgs : List ClaudeMsg, msgs.all (fun m => !claudeMsgIsResult m) = true →
      claudeLoop StreamEnding.failure aborted msgs
        = (claudeNonTerminalPrefix msgs
            ++ (if aborted then [] else [REvent.errorEvent "Claude run failed"])
            ++ [REvent.runCompleted (if aborted then RunStatus.cancelled else RunStatus.error) none],
           REvent.runCompleted (if aborted then RunStatus.cancelled else RunStatus.error) none) := by
  intro msgs
  induction msgs with
  | nil =>
    intro _
    cases aborted <;> simp [claudeLoop, claudeNonTerminalPrefix]
  | cons m rest ih =>
    intro h
    rw [List.all_cons, Bool.and_eq_true] at h
    have hm : claudeMsgIsResult m = false := by
      rcases h with ⟨h1, _⟩
      simpa using h1
    have hr := mapClaudeMessage_result_none hm
    simp only [claudeLoop, hr]
    rw [ih h.2]
    simp [claudeNonTerminalPrefix, List.append_assoc]

lemma codexLoop_failure_of_no_terminal (aborted : Bool) :
    ∀ (evs : List CodexEvent) (ft : Option String),
      evs.all (fun e => !codexEventIsTerminal e) = true →
      codexLoop StreamEnding.failure aborted evs ft
        = (codexNonTerminalPrefix evs
            ++ (if aborted then [] else [REvent.errorEvent "Codex run failed"])
            ++ [REvent.runCompleted (if aborted then RunStatus.cancelled else RunStatus.error)
                  (codexFinalTextAfter evs ft)],
           REvent.runCompleted (if aborted then RunStatus.cancelled else RunStatus.error)
             (codexFinalTextAfter evs ft)) := by
  intro evs
  induction evs with
  | nil =>
    intro ft _
    cases aborted <;> simp [codexLoop, codexNonTerminalPrefix, codexFinalTextAfter]
  | cons ev rest ih =>
    intro ft h
    rw [List.all_cons, Bool.and_eq_true] at h
    have hev : codexEventIsTerminal ev = false := by
      rcases h with ⟨h1, _⟩
      simpa using h1
    cases ev with
    | turnCompleted i o => simp [codexEventIsTerminal] at hev
    | turnFailed => simp [codexEventIsTerminal] at hev
    | errorEvent msg => simp [codexEventIsTerminal] at hev
    | threadStarted tid =>
      simp only [codexLoop]
      rw [ih _ h.2]
      simp [codexNonTerminalPrefix, codexFinalTextAfter, List.append_assoc]
    | itemStartedCommand id command =>
      simp only [codexLoop]
      rw [ih _ h.2]
      simp [codexNonTerminalPrefix, codexFinalTextAfter, List.append_assoc]
    | itemStartedMcp id server tool =>
      simp only [codexLoop]
      rw [ih _ h.2]
      simp [codexNonTerminalPrefix, codexFinalTextAfter, List.append_assoc]
    | itemStartedWebSearch id query =>
      simp only [codexLoop]
      rw [ih _ h.2]
      simp [codexNonTerminalPrefix, codexFinalTextAfter, List.append_assoc]
    | itemCompletedAgentMessage id text =>
      simp only [codexLoop]
      rw [ih _ h.2]
      simp [codexNonTerminalPrefix, codexFinalTextAfter, List.append_assoc]
    | itemCompletedFileChange id completed changes =>
      simp only [codexLoop]
      rw [ih _ h.2]
      simp [codexNonTerminalPrefix, codexFinalTextAfter, List.append_assoc]
    | itemCompletedCommand id command =>
      simp only [codexLoop]
      rw [ih _ h.2]
      simp [codexNonTerminalPrefix, codexFinalTextAfter, List.append_assoc]
    | itemCompletedMcp id =>
      simp only [codexLoop]
      rw [ih _ h.2]
      simp [codexNonTerminalPrefix, codexFinalTextAfter, List.append_assoc]
    | itemCompletedWebSearch id query =>
      simp only [codexLoop]
      rw [ih _ h.2]
      simp [codexNonTerminalPrefix, codexFinalTextAfter, List.append_assoc]
    | otherEvent =>
      simp only [codexLoop]
      rw [ih _ h.2]
      simp [codexNonTerminalPrefix, codexFinalTextAfter, List.append_assoc]

lemma claudeNonTerminalPrefix_countP (msgs : List ClaudeMsg) :
    (claudeNonTerminalPrefix msgs).countP REvent.isTerminal = 0 := by
  induction msgs with
  | nil => rfl
  | cons m rest ih =>
    simp only [claudeNonTerminalPrefix, List.foldr_cons] at *
    rw [List.append_assoc, List.countP_append, List.countP_append,
      mapClaudeMessage_events_countP m, ih]
    cases hmt : (mapClaudeMessage m).events.isEmpty <;>
      simp [List.countP_cons, REvent.isTerminal]

lemma codexNonTerminalPrefix_countP (evs : List CodexEvent) :
    (codexNonTerminalPrefix evs).countP REvent.isTerminal = 0 := by
  induction evs with
  | nil => rfl
  | cons ev rest ih =>
    simp only [codexNonTerminalPrefix, List.foldr_cons] at *
    rw [List.countP_append, mapCodexEvent_countP ev, ih]

/-- C3: when the backend call fails uncaught (the stream throws) before any
terminal event was produced, both controllers synthesize exactly one
`run-completed` event — status `cancelled` when the abort handle had been
triggered, `error` otherwise — preceded by an `error` event only in the
non-cancelled case.  In particular, with the abort handle triggered
(`cancel(runId)` during the run) the terminal status is `cancelled`, never
`error`, and no error event is emitted.  The events contributed by the
terminal-free message prefix contain no terminal event. -/
theorem C3_uncaught_failure_synthesizes_one_terminal
    (cmsgs : List ClaudeMsg) (xevs : List CodexEvent) (aborted : Bool)
    (hc : cmsgs.all (fun m => !claudeMsgIsResult m) = true)
    (hx : xevs.all (fun e => !codexEventIsTerminal e) = true) :
    claudeRunEvents cmsgs StreamEnding.failure aborted
      = (REvent.runStarted
          :: (claudeNonTerminalPrefix cmsgs
            ++ (if aborted then [] else [REvent.errorEvent "Claude run failed"])
            ++ [REvent.runCompleted (if aborted then RunStatus.cancelled else RunStatus.error) none]),
         REvent.runCompleted (if aborted then RunStatus.cancelled else RunStatus.error) none)
    ∧ codexRunEvents xevs StreamEnding.failure aborted
      = (REvent.runStarted
          :: (codexNonTerminalPrefix xevs
            ++ (if aborted then [] else [REvent.errorEvent "Codex run failed"])
            ++ [REvent.runCompleted (if aborted then RunStatus.cancelled else RunStatus.error)
                  (codexFinalTextAfter xevs none)]),
         REvent.runCompleted (if aborted then RunStatus.cancelled else RunStatus.error)
           (codexFinalTextAfter xevs none))
    ∧ (claudeNonTerminalPrefix cmsgs).countP REvent.isTerminal = 0
    ∧ (codexNonTerminalPrefix xevs).countP REvent.isTerminal = 0 := by
  refine ⟨?_, ?_, claudeNonTerminalPrefix_countP cmsgs, codexNonTerminalPrefix_countP xevs⟩
  · simp only [claudeRunEvents, claudeLoop_failure_of_no_result aborted cmsgs hc]
  · simp only [codexRunEvents, codexLoop_failure_of_no_terminal aborted xevs none hx]

/-- Witness for C3: one streaming delta observed, then `cancel(runId)`, then
the backend throws — the terminal event is `cancelled` with no error event. -/
theorem C3_uncaught_failure_witness :
    ([ClaudeMsg.streamEvent (some "hi")].all (fun m => !claudeMsgIsResult m) = true)
    ∧ ([CodexEvent.itemCompletedAgentMessage "m1" "partial"].all
        (fun e => !codexEventIsTerminal e) = true)
    ∧ claudeRunEvents [ClaudeMsg.streamEvent (some "hi")] StreamEnding.failure true
      = ([REvent.runStarted, REvent.assistantDelta "hi",
          REvent.runCompleted RunStatus.cancelled none],
         REvent.runCompleted RunStatus.cancelled none)
    ∧ codexRunEvents [CodexEvent.itemCompletedAgentMessage "m1" "partial"]
        StreamEnding.failure true
      = ([REvent.runStarted, REvent.assistantMessage "partial",
          REvent.runCompleted RunStatus.cancelled (some "partial")],
         REvent.runCompleted RunStatus.cancelled (some "partial")) := by
  have h := C3_uncaught_failure_synthesizes_one_terminal
    [ClaudeMsg.streamEvent (some "hi")]
    [CodexEvent.itemCompletedAgentMessage "m1" "partial"] true (by decide) (by decide)
  refine ⟨by decide, by decide, h.1.trans (by decide), h.2.1.trans (by decide)⟩

/-- C4 (code bug): with `sandbox=true, write=true`, the decision gate does
deny by tool identity — a `Write` outside every workspace root is denied,
the identical write under the root is allowed, a `Read` outside is allowed
— but for the generic `Bash` tool the claimed pattern classification is
broken: `isMutatingBashToolInput` spells its regexes with doubled
backslashes, so a file-mutating utility (`rm`), an in-place editor
(`sed -i`) and a mutating git subcommand (`git commit`) are not classified
as write targets and sail through even when the resolved path is outside
the workspace; only the redirection-operator class still fires.  The
sibling `isReadOnlyBashCommand` (whose patterns the function's own comment
says it intentionally matches) does classify the same commands as
mutating. -/
theorem C4_workspace_scoping_and_bash_classifier_bug :
    claudeCanUseTool { yolo := false, network := true, write := true, sandbox := true }
        (some { cwd := some "/repo", additionalDirs := none }) "Write"
        { command := none, filePath := some "/tmp/outside.md" }
        { blockedPath := some "/tmp/outside.md" }
      = PermissionDecision.deny
          "Path /tmp/outside.md is outside the session workspace (permissions.sandbox=true)." false
    ∧ claudeCanUseTool { yolo := false, network := true, write := true, sandbox := true }
        (some { cwd := some "/repo", additionalDirs := none }) "Write"
        { command := none, filePath := some "/repo/story.md" }
        { blockedPath := some "/repo/story.md" }
      = PermissionDecision.allow { command := none, filePath := some "/repo/story.md" }
    ∧ claudeCanUseTool { yolo := false, network := true, write := true, sandbox := true }
        (some { cwd := some "/repo", additionalDirs := none }) "Read"
        { command := none, filePath := some "/etc/hosts" }
        { blockedPath := some "/etc/hosts" }
      = PermissionDecision.allow { command := none, filePath := some "/etc/hosts" }
    ∧ isMutatingBashToolInput { command := some "rm /tmp/outside.md", filePath := none } = false
    ∧ isMutatingBashToolInput { command := some "sed -i s/a/b/ f.txt", filePath := none } = false
    ∧ isMutatingBashToolInput { command := some "git commit -m x", filePath := none } = false
    ∧ claudeCanUseTool { yolo := false, network := true, write := true, sandbox := true }
        (some { cwd := some "/repo", additionalDirs := none }) "Bash"
        { command := some "rm /tmp/outside.md", filePath := none }
        { blockedPath := some "/tmp/outside.md" }
      = PermissionDecision.allow { command := some "rm /tmp/outside.md", filePath := none }
    ∧ isReadOnlyBashCommand "rm /tmp/outside.md" true = false
    ∧ isReadOnlyBashCommand "sed -i s/a/b/ f.txt" true = false
    ∧ isReadOnlyBashCommand "git commit -m x" true = false
    ∧ isMutatingBashToolInput { command := some "echo hi > /tmp/outside.md", filePath := none }
        = true
    ∧ claudeCanUseTool { yolo := false, network := true, write := true, sandbox := true }
        (some { cwd := some "/repo", additionalDirs := none }) "Bash"
        { command := some "echo hi > /tmp/outside.md", filePath := none }
        { blockedPath := some "/tmp/outside.md" }
      = PermissionDecision.deny
          "Path /tmp/outside.md is outside the session workspace (permissions.sandbox=true)." false := by
  refine ⟨by decide, by decide, by decide, by decide, by decide, by decide, by decide,
    by decide, by decide, by decide, by decide, by decide⟩

lemma lookupField_eq_none {fields : List (String × JValue)}
    (h : fields.any (fun f => f.1 == "value") = false) :
    lookupField fields "value" = none := by
  simp only [lookupField]
  have hfind : fields.find? (fun f => f.1 == "value") = none := by
    rw [List.find?_eq_none]
    intro x hx
    have h' := (List.any_eq_false.mp h) x hx
    simpa using h'
  rw [hfind]
  rfl

lemma unwrapFallback_id_or_single (rt : Option JValue) (v : JValue) :
    unwrapFallbackSingleProperty rt v = v
    ∨ ∃ name c, v = JValue.jobj [(name, c)] ∧ unwrapFallbackSingleProperty rt v = c := by
  cases v with
  | jobj fields =>
    rcases fields with _ | ⟨⟨name, c⟩, _ | ⟨f2, rest⟩⟩
    · exact Or.inl rfl
    · have hcases : unwrapFallbackSingleProperty rt (JValue.jobj [(name, c)])
          = JValue.jobj [(name, c)]
          ∨ unwrapFallbackSingleProperty rt (JValue.jobj [(name, c)]) = c := by
        simp only [unwrapFallbackSingleProperty]
        split_ifs <;> cases c <;> simp <;> omega
      rcases hcases with h | h
      · exact Or.inl h
      · exact Or.inr ⟨name, c, rfl, h⟩
    · exact Or.inl rfl
  | jnull => exact Or.inl rfl
  | jbool b => exact Or.inl rfl
  | jnum q => exact Or.inl rfl
  | jstr s => exact Or.inl rfl
  | jarr l => exact Or.inl rfl

/-- C8 counterexample: for the runtime-core normalizer with a non-object
root (`type: "array"`), a result value that is *not* a wrapper (an object
whose single property is not named `value`) does NOT pass through unwrap
unchanged — the single-property fallback rewrites it. -/
theorem C8_malformed_wrapper_counterexample :
    jTypeIs (lookupField [("type", JValue.jstr "array")] "type") "object" = false
    ∧ (normalizeStructuredOutputSchemaCore (some [("type", JValue.jstr "array")])).unwrap
        (JValue.jobj [("items", JValue.jarr [])])
      ≠ JValue.jobj [("items", JValue.jarr [])] := by
  refine ⟨rfl, ?_⟩
  intro h
  have h2 : JValue.jarr [] = JValue.jobj [("items", JValue.jarr [])] := h
  exact JValue.noConfusion h2

/-- C8 (amended): for every schema whose root type is not `object`, both
normalizers wrap it as an object schema with the single required `value`
property, and `unwrap` on the wrapper shape round-trips for every payload;
`unwrap` never throws (it is total by construction).  A malformed wrapper
passes through unchanged in the provider-local normalizers; the
runtime-core normalizer either passes it through unchanged or — when it is
a single-property object whose sole value matches the requested root type
— unwraps it to that property's value. -/
theorem C8_schema_wrap_unwrap_amended (fields : List (String × JValue))
    (hroot : jTypeIs (lookupField fields "type") "object" = false) :
    (normalizeStructuredOutputSchemaCore (some fields)).schemaForProvider
        = some (wrapSchema fields)
    ∧ (normalizeStructuredOutputSchemaProvider (some fields)).schemaForProvider
        = some (wrapSchema fields)
    ∧ lookupField (wrapSchema fields) "type" = some (JValue.jstr "object")
    ∧ lookupField (wrapSchema fields) "required" = some (JValue.jarr [JValue.jstr "value"])
    ∧ lookupField (wrapSchema fields) "properties"
        = some (JValue.jobj [("value", JValue.jobj fields)])
    ∧ (∀ X : JValue,
        (normalizeStructuredOutputSchemaCore (some fields)).unwrap
          (JValue.jobj [("value", X)]) = X)
    ∧ (∀ X : JValue,
        (normalizeStructuredOutputSchemaProvider (some fields)).unwrap
          (JValue.jobj [("value", X)]) = X)
    ∧ (∀ v : JValue, hasValueKey v = false →
        (normalizeStructuredOutputSchemaProvider (some fields)).unwrap v = v)
    ∧ (∀ v : JValue, hasValueKey v = false →
        (normalizeStructuredOutputSchemaCore (some fields)).unwrap v = v
        ∨ ∃ name c, v = JValue.jobj [(name, c)]
            ∧ (normalizeStructuredOutputSchemaCore (some fields)).unwrap v = c) := by
  have hcore : normalizeStructuredOutputSchemaCore (some fields)
      = { schemaForProvider := some (wrapSchema fields)
          unwrap := unwrapStructuredOutputCore (lookupField fields "type") } := by
    simp [normalizeStructuredOutputSchemaCore, hroot]
  have hprov : normalizeStructuredOutputSchemaProvider (some fields)
      = { schemaForProvider := some (wrapSchema fields)
          unwrap := unwrapStructuredOutputSimple } := by
    simp [normalizeStructuredOutputSchemaProvider, hroot]
  refine ⟨by rw [hcore], by rw [hprov], rfl, rfl, rfl, ?_, ?_, ?_, ?_⟩
  · intro X
    rw [hcore]
    rfl
  · intro X
    rw [hprov]
    rfl
  · intro v hv
    rw [hprov]
    show unwrapStructuredOutputSimple v = v
    cases v with
    | jobj flds =>
      have hl : lookupField flds "value" = none := lookupField_eq_none (by simpa [hasValueKey] using hv)
      simp [unwrapStructuredOutputSimple, hl]
    | jnull => rfl
    | jbool b => rfl
    | jnum q => rfl
    | jstr s => rfl
    | jarr l => rfl
  · intro v hv
    rw [hcore]
    show unwrapStructuredOutputCore (lookupField fields "type") v = v
      ∨ ∃ name c, v = JValue.jobj [(name, c)]
          ∧ unwrapStructuredOutputCore (lookupField fields "type") v = c
    cases v with
    | jobj flds =>
      have hl : lookupField flds "value" = none := lookupField_eq_none (by simpa [hasValueKey] using hv)
      have hstep : unwrapStructuredOutputCore (lookupField fields "type") (JValue.jobj flds)
          = unwrapFallbackSingleProperty (lookupField fields "type") (JValue.jobj flds) := by
        simp [unwrapStructuredOutputCore, hl]
      rw [hstep]
      exact unwrapFallback_id_or_single _ _
    | jnull => exact Or.inl rfl
    | jbool b => exact Or.inl rfl
    | jnum q => exact Or.inl rfl
    | jstr s => exact Or.inl rfl
    | jarr l => exact Or.inl rfl

/-- Witness for C8 (amended) at the schema `{type: "array"}`. -/
theorem C8_schema_wrap_unwrap_witness :
    jTypeIs (lookupField [("type", JValue.jstr "array")] "type") "object" = false
    ∧ (normalizeStructuredOutputSchemaCore (some [("type", JValue.jstr "array")])).unwrap
        (JValue.jobj [("value", JValue.jarr [JValue.jnum 3])]) = JValue.jarr [JValue.jnum 3]
    ∧ hasValueKey (JValue.jstr "oops") = false
    ∧ (normalizeStructuredOutputSchemaProvider (some [("type", JValue.jstr "array")])).unwrap
        (JValue.jstr "oops") = JValue.jstr "oops" := by
  have h := C8_schema_wrap_unwrap_amended [("type", JValue.jstr "array")] rfl
  exact ⟨rfl, h.2.2.2.2.2.1 (JValue.jarr [JValue.jnum 3]), rfl,
    h.2.2.2.2.2.2.2.1 (JValue.jstr "oops") rfl⟩
